import Mathlib

/-!
Verification of the awsbenchmark repository against its specification.

The Python sources under `scripts/` are shallowly embedded: pandas
DataFrames become lists of records, matrix cells become functions from a
row/column label pair to `Option ℚ` (`none` models NaN), and the loops
that fill each matrix become folds over the record list.  Floating point
arithmetic is modelled with exact rationals.
-/

namespace AwsBenchmark

/-! ## format_data.py: data model

A parsed latency record as consumed by `create_latency_matrix`
(columns `source_region`, `target_region`, `avg_latency_ms`). -/
structure LatencyRow where
  source_region : String
  target_region : String
  avg_latency_ms : Option ℚ
deriving DecidableEq, Repr

/-- A parsed P2P record as consumed by `create_p2p_bandwidth_matrix`
(columns `source_region`, `target_region`, `bandwidth_mbps`). -/
structure P2PRowFD where
  source_region : String
  target_region : String
  bandwidth_mbps : Option ℚ
deriving DecidableEq, Repr

/-- A parsed UDP record as consumed by `create_udp_matrices`
(columns `server_region`, `client_region`, `bandwidth_mbps`,
`lost_percent`).  `client_region` is `Option` because the code applies
`dropna(subset=['client_region'])` before building the matrices. -/
structure UdpRow where
  server_region : String
  client_region : Option String
  bandwidth_mbps : Option ℚ
  lost_percent : Option ℚ
deriving DecidableEq, Repr

/-- The duplicate-handling step of `create_latency_matrix` and
`create_p2p_bandwidth_matrix`: if the cell already holds a value,
replace it by the average of the held value and the new one, otherwise
store the new value.  This is the body of
`if pd.notna(matrix.loc[source, target]): matrix.loc[...] = (matrix.loc[...] + v) / 2
 else: matrix.loc[...] = v`. -/
def fillCell (cur : Option ℚ) (v : ℚ) : Option ℚ :=
  match cur with
  | some prev => some ((prev + v) / 2)
  | none => some v

/-- Cell `(a, b)` of the matrix built by `create_latency_matrix`:
the row loop `for _, row in latency_df.iterrows()` updates the cell
`(source, target)` with every row whose `avg_latency_ms` is not NaN,
so, viewed per cell, the loop is a fold over the rows that hit `(a, b)`. -/
def create_latency_matrix_cell (df : List LatencyRow) (a b : String) : Option ℚ :=
  df.foldl (fun cur r =>
    match r.avg_latency_ms with
    | none => cur
    | some v =>
      if r.source_region == a && r.target_region == b then fillCell cur v else cur) none

/-- Cell `(a, b)` of the matrix built by `create_p2p_bandwidth_matrix`;
the loop body is identical to the latency one with `bandwidth_mbps` as
the metric. -/
def create_p2p_bandwidth_matrix_cell (df : List P2PRowFD) (a b : String) : Option ℚ :=
  df.foldl (fun cur r =>
    match r.bandwidth_mbps with
    | none => cur
    | some v =>
      if r.source_region == a && r.target_region == b then fillCell cur v else cur) none

/-- The row/column label set of the latency matrix:
`sorted(list(np.unique(np.concatenate([source_regions, target_regions]))))`.
Membership-wise this is the deduplicated concatenation of the two label
columns; `np.unique` additionally sorts, which no claim depends on. -/
def create_latency_matrix_regions (df : List LatencyRow) : List String :=
  (df.map (fun r => r.source_region) ++ df.map (fun r => r.target_region)).dedup

/-- The row/column label set of the P2P bandwidth matrix. -/
def create_p2p_bandwidth_matrix_regions (df : List P2PRowFD) : List String :=
  (df.map (fun r => r.source_region) ++ df.map (fun r => r.target_region)).dedup

/-- `create_udp_matrices` first drops rows with NaN `client_region`. -/
def udpKept (df : List UdpRow) : List UdpRow :=
  df.filter (fun r => r.client_region.isSome)

/-- The row/column label set of the UDP matrices, computed after the
`dropna` step. -/
def create_udp_matrices_regions (df : List UdpRow) : List String :=
  ((udpKept df).map (fun r => r.server_region) ++
    (udpKept df).filterMap (fun r => r.client_region)).dedup

/-- Arithmetic mean of a list of rationals; `none` models the NaN that
pandas `mean()` yields for an empty group. -/
def listMean (l : List ℚ) : Option ℚ :=
  match l with
  | [] => none
  | _ => some (l.sum / (l.length : ℚ))

/-- Cell `(s, c)` of the UDP bandwidth matrix: `create_udp_matrices`
groups the kept rows by `(server_region, client_region)` and takes the
group mean of `bandwidth_mbps` (pandas `mean()` skips NaN entries of
the group and yields NaN for an all-NaN group, in which case the cell
stays unassigned). -/
def create_udp_matrices_bw_cell (df : List UdpRow) (s c : String) : Option ℚ :=
  listMean (((udpKept df).filter
      (fun r => r.server_region == s && r.client_region == some c)).filterMap
    (fun r => r.bandwidth_mbps))

/-- Cell `(s, c)` of the UDP packet-loss matrix, same grouping with
`lost_percent` as the metric. -/
def create_udp_matrices_loss_cell (df : List UdpRow) (s c : String) : Option ℚ :=
  listMean (((udpKept df).filter
      (fun r => r.server_region == s && r.client_region == some c)).filterMap
    (fun r => r.lost_percent))

/-- The non-NaN latency values of the rows matching the pair `(a, b)`,
in row order. -/
def matchingLatencies (df : List LatencyRow) (a b : String) : List ℚ :=
  df.filterMap (fun r =>
    if r.source_region == a && r.target_region == b then r.avg_latency_ms else none)

/-- The non-NaN bandwidth values of the P2P rows matching `(a, b)`. -/
def matchingBandwidths (df : List P2PRowFD) (a b : String) : List ℚ :=
  df.filterMap (fun r =>
    if r.source_region == a && r.target_region == b then r.bandwidth_mbps else none)

/-- The non-NaN bandwidth values of the kept UDP rows matching `(s, c)`. -/
def matchingUdpBandwidths (df : List UdpRow) (s c : String) : List ℚ :=
  ((udpKept df).filter
      (fun r => r.server_region == s && r.client_region == some c)).filterMap
    (fun r => r.bandwidth_mbps)

/-- The non-NaN loss values of the kept UDP rows matching `(s, c)`. -/
def matchingUdpLosses (df : List UdpRow) (s c : String) : List ℚ :=
  ((udpKept df).filter
      (fun r => r.server_region == s && r.client_region == some c)).filterMap
    (fun r => r.lost_percent)

/-- The running pairwise average a latency/P2P cell ends up holding
after processing a sequence of matching values in order. -/
def runningAvg (l : List ℚ) : Option ℚ :=
  l.foldl fillCell none

/-- Boolean tolerance check used to state the spec's 1e-6 comparison. -/
def withinTol (x y : Option ℚ) : Bool :=
  match x, y with
  | some a, some b => decide (|a - b| ≤ 1 / 1000000)
  | none, none => true
  | _, _ => false

/-! ## parse_data.py: data model

A collected P2P test record as consumed by `parse_p2p_results`.
Optional fields model dictionary keys that may be absent
(`test.get(...)`); the metric fields are always present on success
records produced by `collect_results.parse_iperf3_result`. -/
structure P2PTest where
  status : String
  source_region : Option String
  target_region : Option String
  protocol : Option String
  bits_per_second : ℚ
  bytes : ℚ
  seconds : ℚ
  retransmits : Option ℚ
  jitter_ms : Option ℚ
  lost_packets : Option ℚ
  lost_percent : Option ℚ
  file : String
deriving DecidableEq, Repr

/-- A row of the DataFrame built by `parse_p2p_results`. -/
structure P2PParsedRow where
  source_region : String
  target_region : String
  protocol : String
  bandwidth_mbps : ℚ
  transfer_mb : ℚ
  duration_sec : ℚ
  retransmits : Option ℚ
  jitter_ms : Option ℚ
  lost_packets : Option ℚ
  lost_percent : Option ℚ
  file : String
deriving DecidableEq, Repr

/-- The row built for one success record in `parse_p2p_results`. -/
def parse_p2p_row (t : P2PTest) : P2PParsedRow :=
  { source_region := t.source_region.getD "unknown"
    target_region := t.target_region.getD "unknown"
    protocol := t.protocol.getD "TCP"
    bandwidth_mbps := t.bits_per_second / 1000000
    transfer_mb := t.bytes / 1000000
    duration_sec := t.seconds
    retransmits := if t.protocol == some "TCP" then some (t.retransmits.getD 0) else none
    jitter_ms := if t.protocol == some "UDP" then t.jitter_ms else none
    lost_packets := if t.protocol == some "UDP" then t.lost_packets else none
    lost_percent := if t.protocol == some "UDP" then t.lost_percent else none
    file := t.file }

/-- `parse_p2p_results`: the loop appends one row per record with
`test['status'] == 'success'` and skips every other record. -/
def parse_p2p_results (ts : List P2PTest) : List P2PParsedRow :=
  (ts.filter (fun t => t.status == "success")).map parse_p2p_row

/-- A collected UDP test record as consumed by `parse_udp_results`. -/
structure UdpTest where
  status : String
  server_region : Option String
  client_region : Option String
  bits_per_second : ℚ
  bytes : ℚ
  seconds : ℚ
  jitter_ms : Option ℚ
  lost_packets : Option ℚ
  packets : Option ℚ
  lost_percent : Option ℚ
  file : String
deriving DecidableEq, Repr

/-- A row of the DataFrame built by `parse_udp_results`. -/
structure UdpParsedRow where
  server_region : String
  client_region : String
  protocol : String
  bandwidth_mbps : ℚ
  transfer_mb : ℚ
  duration_sec : ℚ
  jitter_ms : ℚ
  lost_packets : ℚ
  packets : ℚ
  lost_percent : ℚ
  file : String
deriving DecidableEq, Repr

/-- The row built for one success record in `parse_udp_results`:
`client_region = test.get('client_region', 'unknown')`; the regex block
that follows only binds a local `client_ip` and never reassigns
`client_region`, so the field is used unchanged. -/
def parse_udp_row (t : UdpTest) : UdpParsedRow :=
  { server_region := t.server_region.getD "unknown"
    client_region := t.client_region.getD "unknown"
    protocol := "UDP"
    bandwidth_mbps := t.bits_per_second / 1000000
    transfer_mb := t.bytes / 1000000
    duration_sec := t.seconds
    jitter_ms := t.jitter_ms.getD 0
    lost_packets := t.lost_packets.getD 0
    packets := t.packets.getD 0
    lost_percent := t.lost_percent.getD 0
    file := t.file }

/-- `parse_udp_results`: one row per success record, others skipped. -/
def parse_udp_results (ts : List UdpTest) : List UdpParsedRow :=
  (ts.filter (fun t => t.status == "success")).map parse_udp_row

/-- `parse_data.main` reports `p2p_success_count = len(p2p_df)`
(`0` when the DataFrame is `None`, i.e. the row list is empty). -/
def p2p_success_count (ts : List P2PTest) : Nat :=
  (parse_p2p_results ts).length

/-- `parse_data.main` reports `udp_success_count = len(udp_df)`. -/
def udp_success_count (ts : List UdpTest) : Nat :=
  (parse_udp_results ts).length

/-- The JSON round trip from `parse_data` to `format_data`: the UDP row
written by `parse_udp_results` arrives in `create_udp_matrices` with
its string and numeric fields present (hence `some`-wrapped in the
Option-valued DataFrame model). -/
def toUdpRow (r : UdpParsedRow) : UdpRow :=
  { server_region := r.server_region
    client_region := some r.client_region
    bandwidth_mbps := some r.bandwidth_mbps
    lost_percent := some r.lost_percent }

/-! ## collect_results.py -/

/-- Region reconciliation for one UDP result file in `collect_results`:
starting from the region fields embedded in the result file itself
(`eS`, `eC`, absent when the file has no such keys), if either is
missing, the filename IPs (`ipinfo`, from `extract_ip_info`) are looked
up in the `ip_to_region_map` built from the summary files (`mp`);
a successful lookup overwrites the field, a failed one leaves it. -/
def collect_udp_region_fields (eS eC : Option String)
    (ipinfo : Option (String × String)) (mp : String → Option String) :
    Option String × Option String :=
  if eS.isNone || eC.isNone then
    match ipinfo with
    | none => (eS, eC)
    | some (sip, cip) =>
      (match mp sip with
       | some r => some r
       | none => eS,
       match mp cip with
       | some r => some r
       | none => eC)
  else (eS, eC)

/-- The collected UDP record for one file: the iperf3 parse result
(`base`, which carries no region fields) updated with the reconciled
region fields. -/
def collect_udp_record (base : UdpTest) (embeddedS embeddedC : Option String)
    (ipinfo : Option (String × String)) (mp : String → Option String) : UdpTest :=
  let fields := collect_udp_region_fields embeddedS embeddedC ipinfo mp
  { base with server_region := fields.1, client_region := fields.2 }

/-- Substring test on the underlying character lists (used for the
`'summary' not in file` check and for the regex anchor argument). -/
def containsSub (pat s : String) : Bool :=
  decide (pat.data <:+: s.data)

/-- The glob pattern `udp_multicast_*.json` used by `collect_results`
to discover UDP result files. -/
def udpGlobMatch (fname : String) : Bool :=
  "udp_multicast_".data.isPrefixOf fname.data && ".json".data.isSuffixOf fname.data

/-- The UDP files `collect_results` actually processes: the glob hits
minus files whose name contains `summary`. -/
def collect_udp_files (files : List String) : List String :=
  (files.filter udpGlobMatch).filter (fun f => !containsSub "summary" f)

/-- The literal on which the `extract_ip_info` regex
`udp_multicast_([\d\.]+)_to_([\d\.]+)_` is anchored. -/
def extract_ip_info_anchor : String := "udp_multicast_"

/-- Necessary condition for `extract_ip_info` to return a match:
`re.search` can only succeed if the anchor literal occurs as a
substring of the filename. -/
def extract_ip_info_possible (fname : String) : Bool :=
  containsSub extract_ip_info_anchor fname

/-! ## udp_multicast_test.py -/

/-- The basename `run_udp_test` gives each result file:
`f"udp_{server_ip}_to_{client_ip}_{timestamp}.json"`. -/
def udp_result_filename (server_ip client_ip timestamp : String) : String :=
  "udp_" ++ server_ip ++ "_to_" ++ client_ip ++ "_" ++ timestamp ++ ".json"

/-- Characters of a dotted-decimal IP string. -/
def isIpChar (c : Char) : Bool := c.isDigit || c == '.'

/-- Characters of a `%Y%m%d_%H%M%S` timestamp string. -/
def isTsChar (c : Char) : Bool := c.isDigit || c == '_'

/-! ## latency_test.py: run_latency_benchmark -/

/-- One invocation of `run_ping_test` as performed by
`run_latency_benchmark` (positional arguments: server ip pinged,
client ip the test runs from, plus the result-record labels).
`intra_branch` marks calls issued by the multi-instance intra-region
branch. -/
structure PingCall where
  server_ip : String
  client_ip : String
  source_label : String
  target_label : String
  intra_branch : Bool
deriving DecidableEq, Repr

/-- The observable outcome of the all-regions loop of
`run_latency_benchmark`: the ping tests started, the
`Warning: Missing IPs ...` warnings printed (identified by the skipped
pair), and the exception that aborted the run, if any. -/
structure LatRunState where
  tests : List PingCall
  warnings : List (String × String)
  error : Option String
deriving DecidableEq, Repr

/-- The names bound in the scope of `run_latency_benchmark`: its
parameters, every local it assigns, and the module-level globals of
`latency_test.py`.  Python resolves a name at use time against exactly
these scopes. -/
def run_latency_benchmark_scope : List String :=
  ["instance_info_path", "ssh_key_path", "ping_count", "output_dir",
   "all_regions", "use_private_ip", "intra_region", "source_region",
   "target_region", "instance_data", "results", "ip_type", "ip_type_desc",
   "regions", "src_region", "dest_region", "source_ips", "target_ips",
   "i", "s_ip", "j", "t_ip", "result_file", "ping_stats",
   "source_ip", "target_ip", "summary_csv_path",
   "json", "argparse", "subprocess", "os", "sys", "re", "datetime", "csv",
   "load_instance_info", "run_ping_test", "parse_ping_results",
   "write_csv_summary", "run_latency_benchmark"]

/-- The exception raised when the intra-region branch evaluates the
unbound name `ssh_user`. -/
def nameErrorSshUser : String := "NameError: ssh_user is not defined"

/-- The ordered `(src_region, dest_region)` pairs visited by the nested
`for src_region in regions: for dest_region in regions:` loops. -/
def enumPairs (regions : List String) : List (String × String) :=
  regions.flatMap (fun s => regions.map (fun d => (s, d)))

/-- The ping tests the multi-instance intra-region branch would start
(`for i, s_ip in enumerate(source_ips): for j, t_ip in
enumerate(target_ips): if i != j: run_ping_test(t_ip, s_ip, ...)`),
were `ssh_user` bound. -/
def intraTests (src dest : String) (sips tips : List String) : List PingCall :=
  (List.range sips.length).flatMap (fun i =>
    (List.range tips.length).filterMap (fun j =>
      if i ≠ j then
        some ⟨tips.getD j "", sips.getD i "",
              src ++ "_instance" ++ toString (i + 1),
              dest ++ "_instance" ++ toString (j + 1), true⟩
      else none))

/-- The single ping test of the inter-region / single-instance branch:
`run_ping_test(target_ip, source_ip, ...)` with the first IP of each
region, recorded under the plain region labels. -/
def mkInterTest (ipsOf : String → List String) (src dest : String) : PingCall :=
  ⟨(ipsOf dest).headD "", (ipsOf src).headD "", src, dest, false⟩

/-- The body of the nested region loops of `run_latency_benchmark` for
one `(src_region, dest_region)` pair.  An exception raised earlier
terminates the whole function, so a state carrying an error passes
through unchanged. -/
def latencyPairStep (ipsOf : String → List String) (intra : Bool)
    (st : LatRunState) (p : String × String) : LatRunState :=
  if st.error.isSome then st
  else if !intra && p.1 == p.2 then st
  else
    let sips := ipsOf p.1
    let tips := ipsOf p.2
    if sips.isEmpty || tips.isEmpty then
      { st with warnings := st.warnings ++ [p] }
    else if p.1 == p.2 && decide (1 < sips.length) then
      if run_latency_benchmark_scope.contains "ssh_user" then
        { st with tests := st.tests ++ intraTests p.1 p.2 sips tips }
      else
        { st with error := some nameErrorSshUser }
    else
      { st with tests := st.tests ++ [mkInterTest ipsOf p.1 p.2] }

/-- The all-regions branch of `run_latency_benchmark`: `regions` is the
key list of `instance_data['instances']` and `ipsOf r` the list stored
under the selected ip type (`public_ips` or `private_ips`, `[]` when
the key is missing). -/
def run_latency_benchmark_all (regions : List String) (ipsOf : String → List String)
    (intra : Bool) : LatRunState :=
  (enumPairs regions).foldl (latencyPairStep ipsOf intra) ⟨[], [], none⟩

/-! ## point_to_point_test.py -/

/-- One iperf3 client invocation performed by `point_to_point_test`.
Because `get_ips` returns a list of IP lists, the values the code binds
to `src_ip` and `dest_ip` (and interpolates into the ssh commands) are
whole IP lists, not single address strings. -/
structure P2PCall where
  src_ip : List String
  dest_ip : List String
  src_region : String
  dest_region : String
deriving DecidableEq, Repr

/-- `get_ips` of point_to_point_test.py: unlike the variant in
udp_multicast_test.py (which uses `extend`), this one executes
`all_ips.append(instance_info['instances'][region][ip_key])`, so the
result is a list of IP lists, one element per requested region; for a
singleton region list it is `[ipsOf r]`, never empty even when the
region has no IPs. -/
def get_ips (ipsOf : String → List String) (regions : List String) :
    List (List String) :=
  regions.map ipsOf

/-- The body of the destination loop of `point_to_point_test` for one
`dest_region`.  The `if not dest_ips` warn-and-skip branch is kept from
the source but is unreachable: `get_ips` yields the singleton
`[ipsOf dest]`.  The `for dest_ip in dest_ips` loop therefore runs
exactly once with `dest_ip` bound to the entire IP list. -/
def p2pDestStep (ipsOf : String → List String) (all_regions test_intra : Bool)
    (src : String) (src_ip : List String)
    (acc2 : List P2PCall × List String) (dest : String) :
    List P2PCall × List String :=
  if !all_regions && !(src == dest) then acc2
  else if !test_intra && src == dest then acc2
  else
    let dest_ips := get_ips ipsOf [dest]
    if dest_ips.isEmpty then (acc2.1, acc2.2 ++ [dest])
    else
      (acc2.1 ++ dest_ips.filterMap (fun dip =>
        if src == dest && src_ip == dip then none
        else some ⟨src_ip, dip, src, dest⟩), acc2.2)

/-- The inner destination loop of `point_to_point_test` for a fixed
source region. -/
def p2pInnerLoop (ipsOf : String → List String) (all_regions test_intra : Bool)
    (regions : List String) (src : String) (src_ip : List String)
    (acc : List P2PCall × List String) : List P2PCall × List String :=
  (if all_regions then regions else [src]).foldl
    (p2pDestStep ipsOf all_regions test_intra src src_ip) acc

/-- The body of the source loop of `point_to_point_test` for one
`src_region`.  As in the destination loop, the `if not src_ips` branch
is kept from the source but is unreachable, and `src_ips[0]` is the
whole IP list of the region. -/
def p2pSrcStep (ipsOf : String → List String) (all_regions test_intra : Bool)
    (regions : List String) (acc : List P2PCall × List String) (src : String) :
    List P2PCall × List String :=
  let src_ips := get_ips ipsOf [src]
  if src_ips.isEmpty then (acc.1, acc.2 ++ [src])
  else p2pInnerLoop ipsOf all_regions test_intra regions src (src_ips.headD []) acc

/-- The test/warning enumeration of `point_to_point_test`: for each
source region the destination loop runs; the zero-IP warning branches
exist in the code but can never fire because `get_ips` wraps each
region's IP list in a singleton list, so every ordered pair surviving
the flag-based skips gets exactly one iperf3 attempt whose "IPs" are
whole IP lists. -/
def point_to_point_test_enum (regions : List String) (ipsOf : String → List String)
    (all_regions test_intra : Bool) : List P2PCall × List String :=
  regions.foldl (p2pSrcStep ipsOf all_regions test_intra regions) ([], [])

/-- Analysis predicate: an ordered pair the inter-region branch of
`run_latency_benchmark` tests (distinct regions, both with IPs). -/
def interPairKept (ipsOf : String → List String) (p : String × String) : Bool :=
  !(p.1 == p.2) && !(ipsOf p.1).isEmpty && !(ipsOf p.2).isEmpty

/-- Analysis predicate: an ordered pair of distinct regions skipped
with a missing-IPs warning by `run_latency_benchmark`. -/
def interPairWarned (ipsOf : String → List String) (p : String × String) : Bool :=
  !(p.1 == p.2) && ((ipsOf p.1).isEmpty || (ipsOf p.2).isEmpty)

/-- Analysis predicate: a pair that reaches the multi-instance
intra-region branch of `run_latency_benchmark`. -/
def intraTrigger (ipsOf : String → List String) (p : String × String) : Bool :=
  p.1 == p.2 && decide (1 < (ipsOf p.1).length)

/-! ## run_benchmark.py -/

/-- The externally visible actions of `run_benchmark.main` that the
claims are about. -/
inductive BenchAction where
  | terraformDestroy
deriving DecidableEq, Repr

/-- The configuration keys of `run_benchmark.main` the claims need. -/
structure BenchConfig where
  cleanup_resources : Bool
deriving DecidableEq, Repr

/-- Truth values of the step predicates of `run_benchmark.main`:
`setup_terraform(config)`, `install_iperf3(config)`,
`run_network_tests(config)` and the truthiness of
`process_test_results(config)`. -/
structure BenchOutcomes where
  setup_ok : Bool
  install_ok : Bool
  tests_ok : Bool
  process_ok : Bool
deriving DecidableEq, Repr

/-- `cleanup_resources(config)`: runs `terraform destroy -auto-approve`
only when the `cleanup_resources` config flag is set. -/
def cleanup_resources_actions (cfg : BenchConfig) : List BenchAction :=
  if cfg.cleanup_resources then [BenchAction.terraformDestroy] else []

/-- Control flow of `run_benchmark.main` after argument handling:
each failing step returns exit code 1 at once; `cleanup_resources` is
reached only after every step succeeded.  (Report generation and file
copying perform none of the modelled actions and are omitted.)  The
result is the exit code paired with the actions performed. -/
def run_benchmark_main (cfg : BenchConfig) (skip_terraform skip_install skip_tests : Bool)
    (o : BenchOutcomes) : Nat × List BenchAction :=
  if !skip_terraform && !o.setup_ok then (1, [])
  else if !skip_install && !o.install_ok then (1, [])
  else if !skip_tests && !o.tests_ok then (1, [])
  else if !o.process_ok then (1, [])
  else (0, cleanup_resources_actions cfg)

/-! ## Helper lemmas -/

lemma foldl_guard_eq_filterMap {α : Type} (g : α → Option ℚ) (l : List α) :
    ∀ init : Option ℚ,
      l.foldl (fun cur r => match g r with
        | none => cur
        | some v => fillCell cur v) init
        = (l.filterMap g).foldl fillCell init := by
  induction l with
  | nil => intro init; rfl
  | cons r t ih =>
    intro init
    cases hg : g r with
    | none => simp [List.foldl_cons, List.filterMap_cons, hg, ih]
    | some v => simp [List.foldl_cons, List.filterMap_cons, hg, ih]

lemma create_latency_matrix_cell_eq_runningAvg (df : List LatencyRow) (a b : String) :
    create_latency_matrix_cell df a b = runningAvg (matchingLatencies df a b) := by
  unfold create_latency_matrix_cell runningAvg matchingLatencies
  rw [← foldl_guard_eq_filterMap
    (fun r : LatencyRow =>
      if r.source_region == a && r.target_region == b then r.avg_latency_ms else none)
    df none]
  congr 1
  funext cur r
  by_cases h : (r.source_region == a && r.target_region == b) = true
  · simp only [h, if_true]
  · simp only [h, if_false]
    cases r.avg_latency_ms <;> simp [h]

lemma create_p2p_bandwidth_matrix_cell_eq_runningAvg (df : List P2PRowFD) (a b : String) :
    create_p2p_bandwidth_matrix_cell df a b = runningAvg (matchingBandwidths df a b) := by
  unfold create_p2p_bandwidth_matrix_cell runningAvg matchingBandwidths
  rw [← foldl_guard_eq_filterMap
    (fun r : P2PRowFD =>
      if r.source_region == a && r.target_region == b then r.bandwidth_mbps else none)
    df none]
  congr 1
  funext cur r
  by_cases h : (r.source_region == a && r.target_region == b) = true
  · simp only [h, if_true]
  · simp only [h, if_false]
    cases r.bandwidth_mbps <;> simp [h]

lemma runningAvg_eq_listMean_of_short (l : List ℚ) (h : l.length ≤ 2) :
    runningAvg l = listMean l := by
  match l with
  | [] => rfl
  | [x] =>
    show fillCell none x = listMean [x]
    simp [listMean, fillCell]
  | [x, y] =>
    show fillCell (fillCell none x) y = listMean [x, y]
    simp [listMean, fillCell]
  | x :: y :: z :: t =>
    exfalso
    simp only [List.length_cons] at h
    omega

/-! ## Claim theorems -/

/-- C1 counterexample: three latency records for the pair `(a, b)` with
values 0, 0, 3 yield the matrix cell `((0 + 0)/2 + 3)/2 = 3/2`, while
the arithmetic mean of the three values is 1; the difference exceeds
the 1e-6 tolerance, so the aggregated cell is not the arithmetic mean
of the matching records. -/
theorem C1_counterexample :
    create_latency_matrix_cell
        [⟨"a", "b", some 0⟩, ⟨"a", "b", some 0⟩, ⟨"a", "b", some 3⟩] "a" "b"
      = some (3 / 2) ∧
    listMean (matchingLatencies
        [⟨"a", "b", some 0⟩, ⟨"a", "b", some 0⟩, ⟨"a", "b", some 3⟩] "a" "b")
      = some 1 ∧
    withinTol
      (create_latency_matrix_cell
        [⟨"a", "b", some 0⟩, ⟨"a", "b", some 0⟩, ⟨"a", "b", some 3⟩] "a" "b")
      (listMean (matchingLatencies
        [⟨"a", "b", some 0⟩, ⟨"a", "b", some 0⟩, ⟨"a", "b", some 3⟩] "a" "b"))
      = false := by
  have h1 : create_latency_matrix_cell
      [⟨"a", "b", some 0⟩, ⟨"a", "b", some 0⟩, ⟨"a", "b", some 3⟩] "a" "b"
      = some (3 / 2) := by
    norm_num [create_latency_matrix_cell, fillCell]
  have h2 : listMean (matchingLatencies
      [⟨"a", "b", some 0⟩, ⟨"a", "b", some 0⟩, ⟨"a", "b", some 3⟩] "a" "b")
      = some 1 := by
    norm_num [listMean, matchingLatencies, List.filterMap_cons]
  refine ⟨h1, h2, ?_⟩
  rw [h1, h2]
  have habs : |(3 : ℚ) / 2 - 1| = 1 / 2 := by
    rw [show (3 : ℚ) / 2 - 1 = 1 / 2 by norm_num]
    exact abs_of_pos (by norm_num)
  simp [withinTol, habs]
  norm_num

/-- C1 amended: the UDP matrices aggregate duplicate `(server, client)`
records by the true arithmetic mean (for bandwidth and loss alike); the
latency and P2P bandwidth matrices instead fold duplicates with the
running pairwise average `(cell + v) / 2`, which coincides with the
arithmetic mean only when at most two records share the pair. -/
theorem C1_matrix_cell_mean (udpdf : List UdpRow) (latdf : List LatencyRow)
    (p2pdf : List P2PRowFD) (s c a b : String)
    (hlat : (matchingLatencies latdf a b).length ≤ 2)
    (hp2p : (matchingBandwidths p2pdf a b).length ≤ 2) :
    create_udp_matrices_bw_cell udpdf s c = listMean (matchingUdpBandwidths udpdf s c) ∧
    create_udp_matrices_loss_cell udpdf s c = listMean (matchingUdpLosses udpdf s c) ∧
    create_latency_matrix_cell latdf a b = listMean (matchingLatencies latdf a b) ∧
    create_p2p_bandwidth_matrix_cell p2pdf a b = listMean (matchingBandwidths p2pdf a b) := by
  refine ⟨rfl, rfl, ?_, ?_⟩
  · rw [create_latency_matrix_cell_eq_runningAvg, runningAvg_eq_listMean_of_short _ hlat]
  · rw [create_p2p_bandwidth_matrix_cell_eq_runningAvg, runningAvg_eq_listMean_of_short _ hp2p]

/-- C1 witness: the amended claim evaluated on concrete two-record
latency data, one-record P2P data and one-record UDP data. -/
theorem C1_matrix_cell_mean_witness :
    (matchingLatencies [⟨"x", "y", some 10⟩, ⟨"x", "y", some 20⟩] "x" "y").length ≤ 2 ∧
    (create_udp_matrices_bw_cell [⟨"s", some "c", some 50, some 1⟩] "s" "c"
        = listMean (matchingUdpBandwidths [⟨"s", some "c", some 50, some 1⟩] "s" "c") ∧
      create_udp_matrices_loss_cell [⟨"s", some "c", some 50, some 1⟩] "s" "c"
        = listMean (matchingUdpLosses [⟨"s", some "c", some 50, some 1⟩] "s" "c") ∧
      create_latency_matrix_cell [⟨"x", "y", some 10⟩, ⟨"x", "y", some 20⟩] "x" "y"
        = listMean (matchingLatencies [⟨"x", "y", some 10⟩, ⟨"x", "y", some 20⟩] "x" "y") ∧
      create_p2p_bandwidth_matrix_cell [⟨"x", "y", some 4⟩] "x" "y"
        = listMean (matchingBandwidths [⟨"x", "y", some 4⟩] "x" "y")) :=
  ⟨by decide, C1_matrix_cell_mean _ _ _ "s" "c" "x" "y" (by decide) (by decide)⟩

/-- C2 counterexample: a single record with `source_region` equal to
`target_region` (plain, non-instance-qualified label `r`) makes `r` a
matrix label and fills the diagonal cell `(r, r)` with its value, so
the diagonal is not NaN. -/
theorem C2_counterexample :
    "r" ∈ create_latency_matrix_regions [⟨"r", "r", some 5⟩] ∧
    create_latency_matrix_cell [⟨"r", "r", some 5⟩] "r" "r" = some 5 ∧
    create_latency_matrix_cell [⟨"r", "r", some 5⟩] "r" "r" ≠ none := by
  refine ⟨by decide, ?_, ?_⟩ <;>
    simp [create_latency_matrix_cell, fillCell]

/-- C2 amended: diagonal cells of the latency and P2P bandwidth
matrices are NaN provided no input record has `source_region` equal to
`target_region`; when such self-records exist the fill loop writes
their aggregated value into the diagonal. -/
theorem C2_diagonal_nan (latdf : List LatencyRow) (p2pdf : List P2PRowFD)
    (h1 : ∀ r ∈ latdf, r.source_region ≠ r.target_region)
    (h2 : ∀ r ∈ p2pdf, r.source_region ≠ r.target_region) (a : String) :
    create_latency_matrix_cell latdf a a = none ∧
    create_p2p_bandwidth_matrix_cell p2pdf a a = none := by
  constructor
  · rw [create_latency_matrix_cell_eq_runningAvg]
    have hm : matchingLatencies latdf a a = [] := by
      rw [matchingLatencies, List.filterMap_eq_nil_iff]
      intro r hr
      have hne := h1 r hr
      by_cases hsrc : r.source_region = a
      · by_cases htgt : r.target_region = a
        · exact absurd (hsrc.trans htgt.symm) hne
        · simp [htgt]
      · simp [hsrc]
    rw [hm]; rfl
  · rw [create_p2p_bandwidth_matrix_cell_eq_runningAvg]
    have hm : matchingBandwidths p2pdf a a = [] := by
      rw [matchingBandwidths, List.filterMap_eq_nil_iff]
      intro r hr
      have hne := h2 r hr
      by_cases hsrc : r.source_region = a
      · by_cases htgt : r.target_region = a
        · exact absurd (hsrc.trans htgt.symm) hne
        · simp [htgt]
      · simp [hsrc]
    rw [hm]; rfl

/-- C2 witness: the amended claim evaluated on concrete self-record-free
data. -/
theorem C2_diagonal_nan_witness :
    create_latency_matrix_cell [⟨"a", "b", some 1⟩] "a" "a" = none ∧
    create_p2p_bandwidth_matrix_cell [⟨"c", "d", some 2⟩] "a" "a" = none :=
  C2_diagonal_nan _ _ (by decide) (by decide) "a"

/-- C5: two P2P records for the same pair `(a, b)` with bandwidths
100 and 200 Mbps aggregate to the cell value 150. -/
theorem C5_two_records_average :
    create_p2p_bandwidth_matrix_cell
        [⟨"a", "b", some 100⟩, ⟨"a", "b", some 200⟩] "a" "b" = some 150 := by
  norm_num [create_p2p_bandwidth_matrix_cell, fillCell]

/-- C10: the parsed P2P and UDP DataFrames keep exactly one row per
success-status record: their lengths equal the number of success
records, removing the non-success records from the input leaves the
parsed rows (and hence every statistic computed from them) unchanged,
and the reported success counts equal the number of success records. -/
theorem C10_success_filtering (ts : List P2PTest) (us : List UdpTest) :
    p2p_success_count ts = ts.countP (fun t => t.status == "success") ∧
    udp_success_count us = us.countP (fun t => t.status == "success") ∧
    parse_p2p_results (ts.filter (fun t => t.status == "success")) = parse_p2p_results ts ∧
    parse_udp_results (us.filter (fun t => t.status == "success")) = parse_udp_results us ∧
    (parse_p2p_results ts).length = (ts.filter (fun t => t.status == "success")).length ∧
    (parse_udp_results us).length = (us.filter (fun t => t.status == "success")).length := by
  refine ⟨?_, ?_, ?_, ?_, ?_, ?_⟩
  · simp [p2p_success_count, parse_p2p_results, List.countP_eq_length_filter]
  · simp [udp_success_count, parse_udp_results, List.countP_eq_length_filter]
  · simp [parse_p2p_results, List.filter_filter]
  · simp [parse_udp_results, List.filter_filter]
  · simp [parse_p2p_results]
  · simp [parse_udp_results]

/-- C4: a success UDP record whose region identity is resolved by none
of the reconciliation sources (no embedded region fields, and the
filename either yields no IPs or yields IPs absent from the
ip-to-region map) is parsed with both region fields equal to the
literal `"unknown"`, survives parsing, and appears in the UDP matrices
under the `"unknown"` row/column with its bandwidth value rather than
being dropped. -/
theorem C4_unknown_region (base : UdpTest) (ipinfo : Option (String × String))
    (mp : String → Option String)
    (hs : base.status = "success")
    (hfail : ∀ sip cip, ipinfo = some (sip, cip) → mp sip = none ∧ mp cip = none) :
    (parse_udp_row (collect_udp_record base none none ipinfo mp)).server_region
      = "unknown" ∧
    (parse_udp_row (collect_udp_record base none none ipinfo mp)).client_region
      = "unknown" ∧
    parse_udp_results [collect_udp_record base none none ipinfo mp]
      = [parse_udp_row (collect_udp_record base none none ipinfo mp)] ∧
    "unknown" ∈ create_udp_matrices_regions
      [toUdpRow (parse_udp_row (collect_udp_record base none none ipinfo mp))] ∧
    create_udp_matrices_bw_cell
      [toUdpRow (parse_udp_row (collect_udp_record base none none ipinfo mp))]
      "unknown" "unknown" = some (base.bits_per_second / 1000000) := by
  have hf : collect_udp_region_fields none none ipinfo mp = (none, none) := by
    cases ipinfo with
    | none => rfl
    | some p =>
      obtain ⟨sip, cip⟩ := p
      obtain ⟨h1, h2⟩ := hfail sip cip rfl
      simp [collect_udp_region_fields, h1, h2]
  have hrec : collect_udp_record base none none ipinfo mp
      = { base with server_region := none, client_region := none } := by
    simp [collect_udp_record, hf]
  refine ⟨?_, ?_, ?_, ?_, ?_⟩
  · simp [hrec, parse_udp_row]
  · simp [hrec, parse_udp_row]
  · simp [parse_udp_results, hrec, hs]
  · simp [hrec, parse_udp_row, toUdpRow, create_udp_matrices_regions, udpKept,
      List.mem_dedup]
  · simp [hrec, parse_udp_row, toUdpRow, create_udp_matrices_bw_cell, udpKept,
      listMean]

/-- C4 witness: the theorem evaluated on a concrete success record with
no embedded region fields, filename IPs present but absent from the
ip-to-region map. -/
theorem C4_unknown_region_witness :
    (parse_udp_row (collect_udp_record
      ⟨"success", none, none, 8000000, 1000, 10, none, none, none, none,
        "udp_1.2.3.4_to_5.6.7.8_20250419_224615.json"⟩
      none none (some ("1.2.3.4", "5.6.7.8")) (fun _ => none))).server_region
      = "unknown" ∧
    (parse_udp_row (collect_udp_record
      ⟨"success", none, none, 8000000, 1000, 10, none, none, none, none,
        "udp_1.2.3.4_to_5.6.7.8_20250419_224615.json"⟩
      none none (some ("1.2.3.4", "5.6.7.8")) (fun _ => none))).client_region
      = "unknown" ∧
    parse_udp_results [collect_udp_record
      ⟨"success", none, none, 8000000, 1000, 10, none, none, none, none,
        "udp_1.2.3.4_to_5.6.7.8_20250419_224615.json"⟩
      none none (some ("1.2.3.4", "5.6.7.8")) (fun _ => none)]
      = [parse_udp_row (collect_udp_record
      ⟨"success", none, none, 8000000, 1000, 10, none, none, none, none,
        "udp_1.2.3.4_to_5.6.7.8_20250419_224615.json"⟩
      none none (some ("1.2.3.4", "5.6.7.8")) (fun _ => none))] ∧
    "unknown" ∈ create_udp_matrices_regions
      [toUdpRow (parse_udp_row (collect_udp_record
      ⟨"success", none, none, 8000000, 1000, 10, none, none, none, none,
        "udp_1.2.3.4_to_5.6.7.8_20250419_224615.json"⟩
      none none (some ("1.2.3.4", "5.6.7.8")) (fun _ => none)))] ∧
    create_udp_matrices_bw_cell
      [toUdpRow (parse_udp_row (collect_udp_record
      ⟨"success", none, none, 8000000, 1000, 10, none, none, none, none,
        "udp_1.2.3.4_to_5.6.7.8_20250419_224615.json"⟩
      none none (some ("1.2.3.4", "5.6.7.8")) (fun _ => none)))]
      "unknown" "unknown" = some (8000000 / 1000000) :=
  C4_unknown_region
    ⟨"success", none, none, 8000000, 1000, 10, none, none, none, none,
      "udp_1.2.3.4_to_5.6.7.8_20250419_224615.json"⟩
    (some ("1.2.3.4", "5.6.7.8")) (fun _ => none) rfl
    (fun _ _ _ => ⟨rfl, rfl⟩)

/-- C8 counterexample: with `cleanup_resources` enabled and
`setup_terraform` failing (all skip flags off, downstream steps would
succeed), `main` returns exit code 1 and performs no
`terraform destroy`. -/
theorem C8_counterexample :
    run_benchmark_main ⟨true⟩ false false false ⟨false, true, true, true⟩ = (1, []) ∧
    BenchAction.terraformDestroy ∉
      (run_benchmark_main ⟨true⟩ false false false ⟨false, true, true, true⟩).2 := by
  decide

/-- C8 amended: when `setup_terraform` fails, `main` aborts with exit
code 1 immediately but does not invoke `terraform destroy`, whatever
the `cleanup_resources` flag says; `cleanup_resources` (and hence
`terraform destroy`) is reached only after every prior step succeeds. -/
theorem C8_setup_failure_no_cleanup (cfg : BenchConfig)
    (skip_install skip_tests : Bool) (o : BenchOutcomes)
    (h : o.setup_ok = false) :
    run_benchmark_main cfg false skip_install skip_tests o = (1, []) ∧
    BenchAction.terraformDestroy ∉
      (run_benchmark_main cfg false skip_install skip_tests o).2 := by
  constructor
  · simp [run_benchmark_main, h]
  · simp [run_benchmark_main, h]

/-- C8 witness: the amended claim evaluated on a concrete failing-setup
configuration with cleanup enabled. -/
theorem C8_setup_failure_no_cleanup_witness :
    run_benchmark_main ⟨true⟩ false true false ⟨false, false, true, true⟩ = (1, []) ∧
    BenchAction.terraformDestroy ∉
      (run_benchmark_main ⟨true⟩ false true false ⟨false, false, true, true⟩).2 :=
  C8_setup_failure_no_cleanup ⟨true⟩ true false ⟨false, false, true, true⟩ rfl

lemma udp_result_filename_data (s c t : String) :
    (udp_result_filename s c t).data
      = 'u' :: 'd' :: 'p' :: '_' :: (s.data ++ '_' :: 't' :: 'o' :: '_' ::
          (c.data ++ '_' :: (t.data ++ ['.', 'j', 's', 'o', 'n']))) := by
  simp [udp_result_filename, String.data_append]

lemma udp_result_filename_no_multicast_prefix (s c t : String)
    (hs : ∀ ch ∈ s.data, isIpChar ch) :
    ¬ ("udp_multicast_" : String).data <+: (udp_result_filename s c t).data := by
  intro hp
  rw [udp_result_filename_data] at hp
  rw [show ("udp_multicast_" : String).data
      = 'u' :: 'd' :: 'p' :: '_' :: 'm' :: ("ulticast_" : String).data from rfl] at hp
  rw [List.cons_prefix_cons] at hp
  obtain ⟨-, hp⟩ := hp
  rw [List.cons_prefix_cons] at hp
  obtain ⟨-, hp⟩ := hp
  rw [List.cons_prefix_cons] at hp
  obtain ⟨-, hp⟩ := hp
  rw [List.cons_prefix_cons] at hp
  obtain ⟨-, hp⟩ := hp
  cases hsd : s.data with
  | nil =>
    rw [hsd, List.nil_append, List.cons_prefix_cons] at hp
    exact absurd hp.1 (by decide)
  | cons ch tl =>
    rw [hsd, List.cons_append, List.cons_prefix_cons] at hp
    have hip : isIpChar ch := hs ch (by rw [hsd]; exact List.mem_cons_self ch tl)
    rw [← hp.1] at hip
    exact absurd hip (by decide)

lemma udp_result_filename_no_m (s c t : String)
    (hs : ∀ ch ∈ s.data, isIpChar ch) (hc : ∀ ch ∈ c.data, isIpChar ch)
    (ht : ∀ ch ∈ t.data, isTsChar ch) :
    ∀ ch ∈ (udp_result_filename s c t).data, ch ≠ 'm' := by
  intro ch hch heq
  subst heq
  rw [udp_result_filename_data] at hch
  simp only [List.mem_cons, List.mem_append, List.not_mem_nil, or_false] at hch
  rcases hch with h|h|h|h|h|h|h|h|h|h|h|h|h|h|h|h|h <;>
    first
      | exact absurd h (by decide)
      | exact absurd (hs _ h) (by decide)
      | exact absurd (hc _ h) (by decide)
      | exact absurd (ht _ h) (by decide)

/-- C7: a result file written by `run_udp_test` (basename
`udp_<server_ip>_to_<client_ip>_<timestamp>.json`, with dotted-decimal
IPs and a digits-and-underscore timestamp) never matches the
`udp_multicast_*.json` glob, is therefore absent from the UDP file list
`collect_results` processes whatever the data directory contains, and
can never be matched by the `extract_ip_info` regex, whose pattern is
anchored on the literal `udp_multicast_`. -/
theorem C7_udp_files_never_collected (server_ip client_ip timestamp : String)
    (files : List String)
    (hs : ∀ ch ∈ server_ip.data, isIpChar ch)
    (hc : ∀ ch ∈ client_ip.data, isIpChar ch)
    (ht : ∀ ch ∈ timestamp.data, isTsChar ch) :
    udpGlobMatch (udp_result_filename server_ip client_ip timestamp) = false ∧
    udp_result_filename server_ip client_ip timestamp ∉ collect_udp_files files ∧
    extract_ip_info_possible (udp_result_filename server_ip client_ip timestamp)
      = false := by
  have hpre := udp_result_filename_no_multicast_prefix server_ip client_ip timestamp hs
  have hglob : udpGlobMatch (udp_result_filename server_ip client_ip timestamp)
      = false := by
    unfold udpGlobMatch
    have hb : ("udp_multicast_" : String).data.isPrefixOf
        (udp_result_filename server_ip client_ip timestamp).data = false := by
      refine Bool.eq_false_iff.mpr ?_
      intro htrue
      exact hpre (List.isPrefixOf_iff_prefix.mp htrue)
    rw [hb, Bool.false_and]
  refine ⟨hglob, ?_, ?_⟩
  · intro hmem
    rw [collect_udp_files] at hmem
    have h1 := (List.mem_filter.mp hmem).1
    have h2 := (List.mem_filter.mp h1).2
    rw [hglob] at h2
    exact absurd h2 (by decide)
  · unfold extract_ip_info_possible containsSub extract_ip_info_anchor
    refine decide_eq_false ?_
    intro hinf
    have hmm : 'm' ∈ (udp_result_filename server_ip client_ip timestamp).data :=
      hinf.subset (by decide)
    exact udp_result_filename_no_m server_ip client_ip timestamp hs hc ht 'm' hmm rfl

/-- C7 witness: the theorem evaluated on a concrete `run_udp_test`
filename against a directory that also contains a genuine
`udp_multicast_` file. -/
theorem C7_udp_files_never_collected_witness :
    udpGlobMatch (udp_result_filename "1.2.3.4" "5.6.7.8" "20250419_224615") = false ∧
    udp_result_filename "1.2.3.4" "5.6.7.8" "20250419_224615" ∉
      collect_udp_files
        ["udp_multicast_1.2.3.4_to_5.6.7.8_20250419_224615.json",
          udp_result_filename "1.2.3.4" "5.6.7.8" "20250419_224615"] ∧
    extract_ip_info_possible (udp_result_filename "1.2.3.4" "5.6.7.8" "20250419_224615")
      = false :=
  C7_udp_files_never_collected "1.2.3.4" "5.6.7.8" "20250419_224615"
    ["udp_multicast_1.2.3.4_to_5.6.7.8_20250419_224615.json",
      udp_result_filename "1.2.3.4" "5.6.7.8" "20250419_224615"]
    (by decide) (by decide) (by decide)

lemma scope_no_ssh_user : run_latency_benchmark_scope.contains "ssh_user" = false := by
  decide

lemma scope_no_ssh_user_mem : "ssh_user" ∉ run_latency_benchmark_scope := by
  decide

lemma latency_fold_inter_char (ipsOf : String → List String)
    (ps : List (String × String)) :
    ∀ ts ws, ps.foldl (latencyPairStep ipsOf false) ⟨ts, ws, none⟩
      = ⟨ts ++ (ps.filter (interPairKept ipsOf)).map (fun p => mkInterTest ipsOf p.1 p.2),
         ws ++ ps.filter (interPairWarned ipsOf), none⟩ := by
  induction ps with
  | nil => intro ts ws; simp
  | cons p ps ih =>
    intro ts ws
    rw [List.foldl_cons]
    by_cases h1 : (p.1 == p.2) = true
    · have hstep : latencyPairStep ipsOf false ⟨ts, ws, none⟩ p = ⟨ts, ws, none⟩ := by
        simp [latencyPairStep, h1]
      rw [hstep, ih]
      simp [List.filter_cons, interPairKept, interPairWarned, h1]
    · by_cases he1 : (ipsOf p.1).isEmpty = true
      · have hstep : latencyPairStep ipsOf false ⟨ts, ws, none⟩ p
            = ⟨ts, ws ++ [p], none⟩ := by
          simp [latencyPairStep, h1, he1]
        rw [hstep, ih]
        simp [List.filter_cons, interPairKept, interPairWarned, h1, he1]
      · by_cases he2 : (ipsOf p.2).isEmpty = true
        · have hstep : latencyPairStep ipsOf false ⟨ts, ws, none⟩ p
              = ⟨ts, ws ++ [p], none⟩ := by
            simp [latencyPairStep, h1, he1, he2]
          rw [hstep, ih]
          simp [List.filter_cons, interPairKept, interPairWarned, h1, he1, he2]
        · have hstep : latencyPairStep ipsOf false ⟨ts, ws, none⟩ p
              = ⟨ts ++ [mkInterTest ipsOf p.1 p.2], ws, none⟩ := by
            simp [latencyPairStep, h1, he1, he2]
          rw [hstep, ih]
          simp [List.filter_cons, interPairKept, interPairWarned, h1, he1, he2]

lemma run_latency_benchmark_all_inter (regions : List String)
    (ipsOf : String → List String) :
    run_latency_benchmark_all regions ipsOf false
      = ⟨((enumPairs regions).filter (interPairKept ipsOf)).map
            (fun p => mkInterTest ipsOf p.1 p.2),
         (enumPairs regions).filter (interPairWarned ipsOf), none⟩ := by
  unfold run_latency_benchmark_all
  rw [latency_fold_inter_char]
  simp

lemma mem_enumPairs {regions : List String} {p : String × String} :
    p ∈ enumPairs regions ↔ p.1 ∈ regions ∧ p.2 ∈ regions := by
  unfold enumPairs
  rw [List.mem_flatMap]
  constructor
  · rintro ⟨s, hsm, hp⟩
    rw [List.mem_map] at hp
    obtain ⟨d, hd, rfl⟩ := hp
    exact ⟨hsm, hd⟩
  · rintro ⟨h1, h2⟩
    exact ⟨p.1, h1, List.mem_map.mpr ⟨p.2, h2, rfl⟩⟩

lemma filter_flatMap {α β : Type} (l : List α) (g : α → List β) (q : β → Bool) :
    (l.flatMap g).filter q = l.flatMap (fun a => (g a).filter q) := by
  induction l with
  | nil => rfl
  | cons x xs ih => simp [List.flatMap_cons, List.filter_append, ih]

lemma filter_ne_length_of_nodup (l : List String) (s : String)
    (hn : l.Nodup) (hs : s ∈ l) :
    (l.filter (fun d => !(s == d))).length = l.length - 1 := by
  induction l with
  | nil => cases hs
  | cons x xs ih =>
    obtain ⟨hx, hxs⟩ := List.nodup_cons.mp hn
    rcases List.mem_cons.mp hs with rfl | hmem
    · have hsx : (!(s == s)) = false := by simp
      have hfx : xs.filter (fun d => !(s == d)) = xs := by
        rw [List.filter_eq_self]
        intro a ha
        have hne : s ≠ a := fun e => hx (e ▸ ha)
        simp [hne]
      simp [List.filter_cons, hsx, hfx]
    · have hne : (!(s == x)) = true := by
        have hne0 : s ≠ x := by
          intro e
          exact absurd (e ▸ hmem) hx
        simp [hne0]
      rw [List.filter_cons]
      simp only [hne, if_true]
      rw [List.length_cons, ih hxs hmem]
      have hpos : 0 < xs.length := List.length_pos_of_mem hmem
      simp only [List.length_cons]
      omega

lemma sum_map_const_on_mem {α : Type} (l : List α) (f : α → ℕ) (k : ℕ)
    (h : ∀ x ∈ l, f x = k) : (l.map f).sum = l.length * k := by
  induction l with
  | nil => simp
  | cons x xs ih =>
    rw [List.map_cons, List.sum_cons, h x (List.mem_cons_self x xs),
      ih (fun y hy => h y (List.mem_cons_of_mem x hy)), List.length_cons]
    ring

lemma length_filter_ne_pairs (regions : List String) (hnd : regions.Nodup) :
    ((enumPairs regions).filter (fun p => !(p.1 == p.2))).length
      = regions.length * (regions.length - 1) := by
  unfold enumPairs
  rw [filter_flatMap, List.length_flatMap]
  apply sum_map_const_on_mem
  intro s hsm
  show (((regions.map (fun d => (s, d))).filter (fun p => !(p.1 == p.2))).length)
      = regions.length - 1
  rw [List.filter_map, List.length_map]
  have hco : ((fun p : String × String => !(p.1 == p.2)) ∘ (fun d => (s, d)))
      = fun d => !(s == d) := rfl
  rw [hco]
  exact filter_ne_length_of_nodup regions s hnd hsm

/-- C3: with `all_regions=true`, `intra_region=false`, distinct region
keys each holding at least one IP of the requested type, the latency
benchmark runs without error, performs one ping test per ordered pair
of distinct regions (and none for any same-region pair), for a total of
`n * (n - 1)` tests. -/
theorem C3_all_regions_pair_count (regions : List String)
    (ipsOf : String → List String)
    (hnd : regions.Nodup) (hne : ∀ r ∈ regions, ipsOf r ≠ []) :
    (run_latency_benchmark_all regions ipsOf false).error = none ∧
    (run_latency_benchmark_all regions ipsOf false).tests.map
        (fun t => (t.source_label, t.target_label))
      = (enumPairs regions).filter (fun p => !(p.1 == p.2)) ∧
    (run_latency_benchmark_all regions ipsOf false).tests.length
      = regions.length * (regions.length - 1) := by
  have hcong : (enumPairs regions).filter (interPairKept ipsOf)
      = (enumPairs regions).filter (fun p => !(p.1 == p.2)) := by
    apply List.filter_congr
    intro p hp
    obtain ⟨h1, h2⟩ := mem_enumPairs.mp hp
    have e1 : (ipsOf p.1).isEmpty = false := by
      cases hl : (ipsOf p.1).isEmpty
      · rfl
      · exact absurd (List.isEmpty_iff.mp hl) (hne p.1 h1)
    have e2 : (ipsOf p.2).isEmpty = false := by
      cases hl : (ipsOf p.2).isEmpty
      · rfl
      · exact absurd (List.isEmpty_iff.mp hl) (hne p.2 h2)
    simp [interPairKept, e1, e2]
  rw [run_latency_benchmark_all_inter]
  dsimp only
  refine ⟨rfl, ?_, ?_⟩
  · rw [List.map_map]
    have hco : ((fun t : PingCall => (t.source_label, t.target_label))
        ∘ (fun p : String × String => mkInterTest ipsOf p.1 p.2))
        = fun p : String × String => p := rfl
    rw [hco, hcong]
    exact List.map_id' _
  · rw [List.length_map, hcong, length_filter_ne_pairs regions hnd]

/-- C3 witness: the theorem evaluated on two concrete regions, each
with one IP. -/
theorem C3_all_regions_pair_count_witness :
    (run_latency_benchmark_all ["a", "b"] (fun _ => ["9.9.9.9"]) false).error = none ∧
    (run_latency_benchmark_all ["a", "b"] (fun _ => ["9.9.9.9"]) false).tests.map
        (fun t => (t.source_label, t.target_label))
      = (enumPairs ["a", "b"]).filter (fun p => !(p.1 == p.2)) ∧
    (run_latency_benchmark_all ["a", "b"] (fun _ => ["9.9.9.9"]) false).tests.length
      = ["a", "b"].length * (["a", "b"].length - 1) :=
  C3_all_regions_pair_count ["a", "b"] (fun _ => ["9.9.9.9"])
    (by decide) (by decide)

lemma latencyPairStep_error_some (ipsOf : String → List String) (intra : Bool)
    (st : LatRunState) (p : String × String) (h : st.error.isSome = true) :
    latencyPairStep ipsOf intra st p = st := by
  simp [latencyPairStep, h]

lemma foldl_latencyPairStep_error_some (ipsOf : String → List String) (intra : Bool)
    (ps : List (String × String)) :
    ∀ st : LatRunState, st.error.isSome = true →
      ps.foldl (latencyPairStep ipsOf intra) st = st := by
  induction ps with
  | nil => intro st _; rfl
  | cons p ps ih =>
    intro st h
    rw [List.foldl_cons, latencyPairStep_error_some ipsOf intra st p h]
    exact ih st h

lemma latencyPairStep_error_options (ipsOf : String → List String) (intra : Bool)
    (st : LatRunState) (p : String × String) :
    (latencyPairStep ipsOf intra st p).error = st.error ∨
    (latencyPairStep ipsOf intra st p).error = some nameErrorSshUser := by
  by_cases h0 : st.error.isSome = true
  · simp [latencyPairStep, h0]
  · by_cases h1 : (!intra && (p.1 == p.2)) = true
    · simp [latencyPairStep, h0, h1]
    · by_cases h2 : ((ipsOf p.1).isEmpty || (ipsOf p.2).isEmpty) = true
      · simp [latencyPairStep, h0, h1, h2]
      · by_cases h3 : ((p.1 == p.2) && decide (1 < (ipsOf p.1).length)) = true
        · simp [latencyPairStep, h0, h1, h2, h3, scope_no_ssh_user_mem]
        · simp [latencyPairStep, h0, h1, h2, h3]

lemma latencyPairStep_error_none_of_not_trigger (ipsOf : String → List String)
    (st : LatRunState) (p : String × String)
    (h : st.error = none) (ht : intraTrigger ipsOf p = false) :
    (latencyPairStep ipsOf true st p).error = none := by
  have ht' : ((p.1 == p.2) && decide (1 < (ipsOf p.1).length)) = false := ht
  have h0 : st.error.isSome = false := by rw [h]; rfl
  have hnp : ¬(p.1 = p.2 ∧ 1 < (ipsOf p.1).length) := by
    rintro ⟨e, hl⟩
    rw [beq_iff_eq.mpr e, decide_eq_true hl] at ht'
    simp at ht'
  by_cases h2 : ((ipsOf p.1).isEmpty || (ipsOf p.2).isEmpty) = true
  · simp [latencyPairStep, h0, h2, h]
  · simp [latencyPairStep, h0, h2, hnp, h]

lemma latency_fold_error_options (ipsOf : String → List String) (intra : Bool)
    (ps : List (String × String)) :
    ∀ st : LatRunState,
      (ps.foldl (latencyPairStep ipsOf intra) st).error = st.error ∨
      (ps.foldl (latencyPairStep ipsOf intra) st).error = some nameErrorSshUser := by
  induction ps with
  | nil => intro st; exact Or.inl rfl
  | cons q ps ih =>
    intro st
    rw [List.foldl_cons]
    rcases ih (latencyPairStep ipsOf intra st q) with h | h
    · rcases latencyPairStep_error_options ipsOf intra st q with h2 | h2
      · exact Or.inl (h.trans h2)
      · exact Or.inr (h.trans h2)
    · exact Or.inr h

lemma latency_fold_error_isSome_of_trigger (ipsOf : String → List String)
    (ps : List (String × String)) :
    ∀ st : LatRunState, st.error = none →
      (∃ p ∈ ps, intraTrigger ipsOf p = true) →
      ((ps.foldl (latencyPairStep ipsOf true) st).error).isSome = true := by
  induction ps with
  | nil =>
    rintro st _ ⟨p, hp, -⟩
    cases hp
  | cons q ps ih =>
    rintro st hnone ⟨p, hp, htr⟩
    rw [List.foldl_cons]
    rcases List.mem_cons.mp hp with rfl | hmem
    · have hb1 : (p.1 == p.2) = true := by
        cases hb : (p.1 == p.2)
        · rw [intraTrigger, hb] at htr; simp at htr
        · rfl
      have hb2 : decide (1 < (ipsOf p.1).length) = true := by
        cases hb : decide (1 < (ipsOf p.1).length)
        · rw [intraTrigger, hb] at htr; simp at htr
        · rfl
      have hlen : 1 < (ipsOf p.1).length := of_decide_eq_true hb2
      have hemp : (ipsOf p.1).isEmpty = false := by
        cases hl : ipsOf p.1 with
        | nil => rw [hl] at hlen; simp at hlen
        | cons x xs => rfl
      have hp12 : p.1 = p.2 := eq_of_beq hb1
      have h0 : st.error.isSome = false := by rw [hnone]; rfl
      have hstep : (latencyPairStep ipsOf true st p).error = some nameErrorSshUser := by
        simp [latencyPairStep, h0, hb1, hb2, hemp, ← hp12, scope_no_ssh_user_mem]
      have hsome : (latencyPairStep ipsOf true st p).error.isSome = true := by
        rw [hstep]; rfl
      rw [foldl_latencyPairStep_error_some ipsOf true ps _ hsome]
      exact hsome
    · by_cases hq : (latencyPairStep ipsOf true st q).error = none
      · exact ih _ hq ⟨p, hmem, htr⟩
      · rcases latencyPairStep_error_options ipsOf true st q with h | h
        · exact absurd (h.trans hnone) hq
        · have hsome : (latencyPairStep ipsOf true st q).error.isSome = true := by
            rw [h]; rfl
          rw [foldl_latencyPairStep_error_some ipsOf true ps _ hsome]
          exact hsome

lemma latencyPairStep_tests_cases (ipsOf : String → List String) (intra : Bool)
    (st : LatRunState) (p : String × String) :
    ∀ t ∈ (latencyPairStep ipsOf intra st p).tests,
      t ∈ st.tests ∨ t.intra_branch = false := by
  intro t ht
  by_cases h0 : st.error.isSome = true
  · rw [latencyPairStep_error_some ipsOf intra st p h0] at ht
    exact Or.inl ht
  · by_cases h1 : (!intra && (p.1 == p.2)) = true
    · simp [latencyPairStep, h0, h1] at ht
      exact Or.inl ht
    · by_cases h2 : ((ipsOf p.1).isEmpty || (ipsOf p.2).isEmpty) = true
      · simp [latencyPairStep, h0, h1, h2] at ht
        exact Or.inl ht
      · by_cases h3 : ((p.1 == p.2) && decide (1 < (ipsOf p.1).length)) = true
        · simp [latencyPairStep, h0, h1, h2, h3, scope_no_ssh_user_mem] at ht
          exact Or.inl ht
        · simp [latencyPairStep, h0, h1, h2, h3] at ht
          rcases ht with ht | ht
          · exact Or.inl ht
          · right
            rw [ht]
            rfl

lemma latency_fold_tests_intra_false (ipsOf : String → List String) (intra : Bool)
    (ps : List (String × String)) :
    ∀ st : LatRunState, (∀ t ∈ st.tests, t.intra_branch = false) →
      ∀ t ∈ (ps.foldl (latencyPairStep ipsOf intra) st).tests,
        t.intra_branch = false := by
  induction ps with
  | nil => intro st h; exact h
  | cons q ps ih =>
    intro st h
    rw [List.foldl_cons]
    refine ih (latencyPairStep ipsOf intra st q) ?_
    intro t ht
    rcases latencyPairStep_tests_cases ipsOf intra st q t ht with hin | hfl
    · exact h t hin
    · exact hfl

/-- C6: with `all_regions=true` and `intra_region=true`, as soon as the
enumeration reaches a region holding more than one IP of the selected
type, the multi-instance intra-region branch evaluates the unbound name
`ssh_user` and the run aborts with a NameError; no ping test of that
branch is ever started. -/
theorem C6_intra_region_name_error (regions : List String)
    (ipsOf : String → List String) (r : String)
    (hr : r ∈ regions) (hlen : 1 < (ipsOf r).length) :
    (run_latency_benchmark_all regions ipsOf true).error = some nameErrorSshUser ∧
    ∀ t ∈ (run_latency_benchmark_all regions ipsOf true).tests,
      t.intra_branch = false := by
  constructor
  · have hex : ∃ p ∈ enumPairs regions, intraTrigger ipsOf p = true := by
      refine ⟨(r, r), mem_enumPairs.mpr ⟨hr, hr⟩, ?_⟩
      simp [intraTrigger, hlen]
    have hsome := latency_fold_error_isSome_of_trigger ipsOf (enumPairs regions)
      ⟨[], [], none⟩ rfl hex
    show ((enumPairs regions).foldl (latencyPairStep ipsOf true)
        ⟨[], [], none⟩).error = some nameErrorSshUser
    rcases latency_fold_error_options ipsOf true (enumPairs regions)
        ⟨[], [], none⟩ with h | h
    · rw [h] at hsome
      exact absurd hsome (by decide)
    · exact h
  · refine latency_fold_tests_intra_false ipsOf true (enumPairs regions)
      ⟨[], [], none⟩ ?_
    intro t ht
    cases ht

/-- C6 witness: the theorem evaluated on one concrete region with two
instances. -/
theorem C6_intra_region_name_error_witness :
    (run_latency_benchmark_all ["x"] (fun _ => ["1.1.1.1", "2.2.2.2"]) true).error
      = some nameErrorSshUser :=
  (C6_intra_region_name_error ["x"] (fun _ => ["1.1.1.1", "2.2.2.2"]) "x"
    (by decide) (by decide)).1

lemma isEmpty_false_of_ne_nil {α : Type} {l : List α} (h : l ≠ []) :
    l.isEmpty = false := by
  cases l with
  | nil => exact absurd rfl h
  | cons x xs => rfl

lemma p2p_dest_fold_char (ipsOf : String → List String) (src : String)
    (src_ip : List String) (ds : List String) :
    ∀ acc : List P2PCall × List String,
      ds.foldl (p2pDestStep ipsOf true false src src_ip) acc
        = (acc.1 ++ ds.filterMap (fun dest =>
              if (src == dest) = true then none
              else some ⟨src_ip, ipsOf dest, src, dest⟩),
           acc.2) := by
  induction ds with
  | nil => intro acc; simp
  | cons d ds ih =>
    intro acc
    rw [List.foldl_cons]
    by_cases h1 : (src == d) = true
    · have hstep : p2pDestStep ipsOf true false src src_ip acc d = acc := by
        simp [p2pDestStep, h1]
      have h1' : src = d := eq_of_beq h1
      subst h1'
      rw [hstep, ih]
      simp [List.filterMap_cons]
    · have h1' : ¬src = d := by simpa using h1
      have hstep : p2pDestStep ipsOf true false src src_ip acc d
          = (acc.1 ++ [⟨src_ip, ipsOf d, src, d⟩], acc.2) := by
        simp [p2pDestStep, get_ips, h1]
      rw [hstep, ih]
      simp [List.filterMap_cons, h1']

lemma p2p_src_fold_char (ipsOf : String → List String) (regions : List String)
    (rs : List String) :
    ∀ acc : List P2PCall × List String,
      rs.foldl (p2pSrcStep ipsOf true false regions) acc
        = (acc.1 ++ rs.flatMap (fun src => regions.filterMap (fun dest =>
              if (src == dest) = true then none
              else some ⟨ipsOf src, ipsOf dest, src, dest⟩)),
           acc.2) := by
  induction rs with
  | nil => intro acc; simp
  | cons src rs ih =>
    intro acc
    rw [List.foldl_cons]
    have hstep : p2pSrcStep ipsOf true false regions acc src
        = regions.foldl (p2pDestStep ipsOf true false src (ipsOf src)) acc := by
      simp [p2pSrcStep, get_ips, p2pInnerLoop]
    rw [hstep, p2p_dest_fold_char, ih]
    simp [List.flatMap_cons, List.append_assoc]

lemma point_to_point_test_enum_char (regions : List String)
    (ipsOf : String → List String) :
    point_to_point_test_enum regions ipsOf true false
      = (regions.flatMap (fun src => regions.filterMap (fun dest =>
            if (src == dest) = true then none
            else some ⟨ipsOf src, ipsOf dest, src, dest⟩)),
         []) := by
  have h0 : point_to_point_test_enum regions ipsOf true false
      = regions.foldl (p2pSrcStep ipsOf true false regions) ([], []) := rfl
  rw [h0, p2p_src_fold_char]
  simp

/-- C9 counterexample: with region `a` holding no IPs and region `b`
holding one, the point-to-point enumeration prints no missing-IP
warning at all, and the pair `(a, b)` is not skipped: one iperf3
attempt is made whose client "IP" is the empty IP list.  `get_ips`
wraps each region's IP list in a singleton list, so the zero-IP checks
of `point_to_point_test` can never fire. -/
theorem C9_counterexample :
    (point_to_point_test_enum ["a", "b"]
        (fun r => if r = "b" then ["9.9.9.9"] else []) true false).2 = [] ∧
    (⟨[], ["9.9.9.9"], "a", "b"⟩ : P2PCall) ∈
      (point_to_point_test_enum ["a", "b"]
        (fun r => if r = "b" then ["9.9.9.9"] else []) true false).1 := by
  decide

/-- C9 amended: in the latency enumeration every ordered pair of
distinct regions with a missing-IP side is skipped with a printed
warning, the enumeration continues with the remaining pairs and the
run does not abort; `point_to_point_test`, however, never prints a
missing-IP warning and never skips such a pair: its `get_ips` returns
the singleton `[ip_list]`, so the zero-IP checks are dead and every
ordered pair of distinct regions gets exactly one test attempt whose
client and server "IPs" are the whole (possibly empty) IP lists. -/
theorem C9_latency_skips_p2p_attempts (regions : List String)
    (ipsOf : String → List String) :
    (run_latency_benchmark_all regions ipsOf false).error = none ∧
    (∀ s d, (s, d) ∈ enumPairs regions → s ≠ d →
      (ipsOf s = [] ∨ ipsOf d = []) →
        ((s, d) ∈ (run_latency_benchmark_all regions ipsOf false).warnings ∧
         ∀ t ∈ (run_latency_benchmark_all regions ipsOf false).tests,
            ¬(t.source_label = s ∧ t.target_label = d))) ∧
    (∀ s d, s ∈ regions → d ∈ regions → s ≠ d →
      ipsOf s ≠ [] → ipsOf d ≠ [] →
        mkInterTest ipsOf s d ∈ (run_latency_benchmark_all regions ipsOf false).tests) ∧
    (point_to_point_test_enum regions ipsOf true false).2 = [] ∧
    (point_to_point_test_enum regions ipsOf true false).1
      = regions.flatMap (fun src => regions.filterMap (fun dest =>
          if (src == dest) = true then none
          else some ⟨ipsOf src, ipsOf dest, src, dest⟩)) := by
  rw [run_latency_benchmark_all_inter, point_to_point_test_enum_char]
  dsimp only
  refine ⟨rfl, ?_, ?_, rfl, rfl⟩
  · intro s d hmem hne hor
    have hbeq : (s == d) = false := by simp [hne]
    constructor
    · refine List.mem_filter.mpr ⟨hmem, ?_⟩
      rcases hor with h0 | h0
      · simp [interPairWarned, hbeq, h0]
      · simp [interPairWarned, hbeq, h0]
    · intro t ht hlab
      rw [List.mem_map] at ht
      obtain ⟨p, hp, rfl⟩ := ht
      have hkept := (List.mem_filter.mp hp).2
      obtain ⟨hlab1, hlab2⟩ := hlab
      have hp1 : p.1 = s := hlab1
      have hp2 : p.2 = d := hlab2
      rw [interPairKept, hp1, hp2] at hkept
      rcases hor with h0 | h0 <;> simp [h0] at hkept
  · intro s d hs hd hne hs0 hd0
    have hbeq : (s == d) = false := by simp [hne]
    refine List.mem_map.mpr ⟨(s, d), ?_, rfl⟩
    refine List.mem_filter.mpr ⟨mem_enumPairs.mpr ⟨hs, hd⟩, ?_⟩
    simp [interPairKept, hbeq, isEmpty_false_of_ne_nil hs0,
      isEmpty_false_of_ne_nil hd0]

/-- C9 witness: the amended claim evaluated on two concrete regions,
the source region lacking IPs: the latency enumeration warns about the
pair while the point-to-point enumeration warns about nothing. -/
theorem C9_latency_skips_p2p_attempts_witness :
    ("a", "b") ∈ (run_latency_benchmark_all ["a", "b"]
        (fun r => if r = "b" then ["9.9.9.9"] else []) false).warnings ∧
    (point_to_point_test_enum ["a", "b"]
        (fun r => if r = "b" then ["9.9.9.9"] else []) true false).2 = [] :=
  ⟨((C9_latency_skips_p2p_attempts ["a", "b"]
        (fun r => if r = "b" then ["9.9.9.9"] else [])).2.1 "a" "b"
      (by decide) (by decide) (Or.inl (by decide))).1,
    (C9_latency_skips_p2p_attempts ["a", "b"]
        (fun r => if r = "b" then ["9.9.9.9"] else [])).2.2.2.1⟩

end AwsBenchmark
